import Mathlib

set_option maxRecDepth 100000

/-!
Verification of the loan-schedule calculation engine of the repository
(`main.py`): the period accrual calculator (`calculate_monthly_balance`),
the monthly schedule builder, the mid-month-transaction and direct-deposit
branches of the `calculate` route, and the settlement projectors
(`project_loan_end`, `calculate_projection`).

Modelling conventions:
* Python floats are modelled as exact rationals (`ℚ`).
* `round(x, 2)` is modelled as round-half-to-even to 2 decimal places
  (`round2`), matching Python's documented rounding mode.
* `datetime.date` is modelled by `Date` (year/month/day) with the proleptic
  Gregorian ordinal `Date.ord` mirroring `date.toordinal()`; date
  subtraction `(a - b).days` is `diffDays a b`, and date comparison is
  ordinal comparison (equivalent to Python's field-wise comparison on valid
  dates).
* Schedule rows are Python dicts with a fixed key set; they are modelled by
  the structure `Entry`.  The `end_date` value is stored by the source as a
  `'%d %b %Y'`-formatted string and parsed back with `strptime` wherever it
  is used; since that format round-trips the full date, `Entry.end_date`
  stores the `Date` itself.
* The `while` loops all advance one calendar month per iteration; they are
  embedded as fuel recursion where the fuel supplied by the wrapper equals
  the exact number of iterations the Python loop performs.
-/

/-- Executable floor of a rational. -/
def ratFloor (q : ℚ) : ℤ := q.num / (q.den : ℤ)

theorem ratFloor_eq (q : ℚ) : ratFloor q = ⌊q⌋ := Rat.floor_def.symm

/-- Round-half-to-even of a rational to an integer, the rounding mode of
Python's builtin `round`. -/
def rhe (q : ℚ) : ℤ :=
  if q - ratFloor q < 1/2 then ratFloor q
  else if 1/2 < q - ratFloor q then ratFloor q + 1
  else if ratFloor q % 2 = 0 then ratFloor q else ratFloor q + 1

/-- Model of Python's `round(x, 2)`. -/
def round2 (q : ℚ) : ℚ := (rhe (q * 100) : ℚ) / 100

theorem abs_sub_rhe_le (q : ℚ) : |q - (rhe q : ℚ)| ≤ 1/2 := by
  have h0 : (0:ℚ) ≤ q - (ratFloor q : ℚ) := by
    rw [ratFloor_eq]; have := Int.floor_le q; linarith
  have h1 : q - (ratFloor q : ℚ) < 1 := by
    rw [ratFloor_eq]; have := Int.lt_floor_add_one q; linarith
  unfold rhe
  split_ifs with hlt hgt heven
  · rw [abs_of_nonneg h0]; linarith
  · push_cast
    rw [abs_of_nonpos (by linarith)]
    linarith
  · rw [abs_of_nonneg h0]; linarith
  · push_cast
    rw [abs_of_nonpos (by linarith)]
    linarith

theorem abs_sub_round2_le (q : ℚ) : |q - round2 q| ≤ 1/100 := by
  have h := abs_sub_rhe_le (q * 100)
  unfold round2
  have heq : q - (rhe (q * 100) : ℚ) / 100 = (q * 100 - (rhe (q * 100) : ℚ)) / 100 := by
    ring
  rw [heq, abs_div]
  rw [abs_of_pos (by norm_num : (0:ℚ) < 100)]
  linarith

theorem rhe_intCast (n : ℤ) : rhe (n : ℚ) = n := by
  unfold rhe
  rw [ratFloor_eq, Int.floor_intCast]
  simp

theorem round2_round2 (q : ℚ) : round2 (round2 q) = round2 q := by
  unfold round2
  have h : (rhe (q * 100) : ℚ) / 100 * 100 = ((rhe (q * 100) : ℤ) : ℚ) := by
    field_simp
  rw [h, rhe_intCast]

/-- Gregorian leap-year test, as in Python's `calendar.isleap`. -/
def isLeap (y : ℕ) : Bool :=
  (y % 4 == 0 && y % 100 != 0) || (y % 400 == 0)

/-- `calendar.monthrange(y, m)[1]`: number of days in a month. -/
def daysInMonth (y m : ℕ) : ℕ :=
  if m = 2 then (if isLeap y then 29 else 28)
  else if m = 4 ∨ m = 6 ∨ m = 9 ∨ m = 11 then 30
  else 31

/-- Days in year `y` strictly before month `m`. -/
def daysBeforeMonth (y m : ℕ) : ℕ :=
  ((List.range (m - 1)).map (fun k => daysInMonth y (k + 1))).sum

/-- A calendar date, as `datetime.date`. -/
structure Date where
  year : ℕ
  month : ℕ
  day : ℕ
deriving DecidableEq

/-- `date.toordinal()`: proleptic Gregorian ordinal. -/
def Date.ord (d : Date) : ℕ :=
  365 * (d.year - 1) + (d.year - 1) / 4 - (d.year - 1) / 100 + (d.year - 1) / 400
    + daysBeforeMonth d.year d.month + d.day

/-- `(a - b).days` on Python dates. -/
def diffDays (a b : Date) : ℤ := (a.ord : ℤ) - (b.ord : ℤ)

/-- `date(d.year, d.month, monthrange(d.year, d.month)[1])`: last day of
`d`'s month. -/
def monthEnd (d : Date) : Date :=
  ⟨d.year, d.month, daysInMonth d.year d.month⟩

/-- The first day of the month after `d`'s month, as computed by the
source's `if current_date.month == 12: ... else: ...` idiom. -/
def nextMonthFirst (d : Date) : Date :=
  if d.month = 12 then ⟨d.year + 1, 1, 1⟩ else ⟨d.year, d.month + 1, 1⟩

/-- `d + timedelta(days=1)` for a valid date. -/
def nextDay (d : Date) : Date :=
  if d.day < daysInMonth d.year d.month then ⟨d.year, d.month, d.day + 1⟩
  else if d.month = 12 then ⟨d.year + 1, 1, 1⟩
  else ⟨d.year, d.month + 1, 1⟩

/-- One row of the schedule: the dict built by `calculate_monthly_balance`
and by the event branches of `calculate`.  `is_direct_deposit` is `none`
when the source dict carries no such key. -/
structure Entry where
  end_date : Date
  opening_balance : ℚ
  interest : ℚ
  service_fee : ℚ
  repayment : ℚ
  closing_balance : ℚ
  is_direct_deposit : Option Bool := none
deriving DecidableEq

/-- The unrounded closing balance computed by the non-first branch of
`calculate_monthly_balance` (its local variable `closing_balance` before
rounding). -/
def closing_unrounded (opening_balance interest_rate service_fee repayment : ℚ)
    (start_date end_date : Date) : ℚ :=
  opening_balance
    + ((diffDays end_date start_date + 1 : ℤ) : ℚ) / 365 * (interest_rate / 100)
        * opening_balance
    + service_fee - repayment

/-- `calculate_monthly_balance` from `main.py`. -/
def calculate_monthly_balance (opening_balance interest_rate service_fee repayment : ℚ)
    (start_date end_date : Date) (is_first_month : Bool) : Entry :=
  if is_first_month then
    { end_date := end_date
      opening_balance := 0
      interest := 0
      service_fee := 0
      repayment := repayment
      closing_balance := opening_balance }
  else
    let days : ℤ := diffDays end_date start_date + 1
    let interest : ℚ := (days : ℚ) / 365 * (interest_rate / 100) * opening_balance
    let closing_balance : ℚ := opening_balance + interest + service_fee - repayment
    { end_date := end_date
      opening_balance := round2 opening_balance
      interest := round2 interest
      service_fee := service_fee
      repayment := repayment
      closing_balance := round2 closing_balance }

/-- The body of the month-by-month schedule loop of `calculate`
(`while current_date <= current_month_end: ...`), as fuel recursion.
State: running balance (`current_balance`), `current_date`, `month_index`.
Returns the produced entries plus the final loop state, which the source
leaves in `current_balance` / `current_date` for the projection call.
The fuel passed by `buildSchedule` equals the exact number of iterations
the Python loop performs. -/
def buildLoop (interest_rate service_fee : ℚ) (repayments : List ℚ) (endD : Date) :
    ℕ → ℚ → Date → ℕ → List Entry × ℚ × Date
  | 0, bal, cur, _ => ([], bal, cur)
  | fuel + 1, bal, cur, idx =>
    if cur.ord ≤ endD.ord then
      let e := monthEnd cur
      let m := calculate_monthly_balance bal interest_rate service_fee
        (repayments.getD idx 0) cur e (idx == 0)
      let rest := buildLoop interest_rate service_fee repayments endD fuel
        m.closing_balance (nextMonthFirst cur) (idx + 1)
      (m :: rest.1, rest.2)
    else ([], bal, cur)

/-- Number of iterations of the monthly loop: one per calendar month from
`s`'s month through `e`'s month (inclusive). -/
def monthsFuel (s e : Date) : ℕ :=
  e.year * 12 + e.month + 1 - (s.year * 12 + s.month)

/-- The base monthly schedule built by `calculate` when no event is
injected (lines 393-418 of `main.py`), from `start_date` up to the end of
`today`'s month. -/
def buildSchedule (initial_balance interest_rate service_fee : ℚ)
    (repayments : List ℚ) (start_date today : Date) : List Entry :=
  (buildLoop interest_rate service_fee repayments (monthEnd today)
    (monthsFuel start_date today) initial_balance start_date 0).1

/-- `list.insert(i, x)` of Python: insert `x` before position `i`
(appending when `i ≥ len(list)`). -/
def insertAt (l : List Entry) (i : ℕ) (x : Entry) : List Entry :=
  l.take i ++ x :: l.drop i

/-- The in-place recompute loop of the mid-month branch
(`for i in range(insert_index, len(months)): ...`, lines 230-241 of
`main.py`), acting on the suffix of the schedule starting at
`insert_index`.  `bal` is the running `current_balance`, `prevDate` the
date of the entry immediately preceding the current one (the transaction
date for the first recomputed entry).  The mutation never touches
`end_date` or `repayment`, so the prior entry's date read back from the
old list equals the one in the recursion. -/
def cascade (interest_rate service_fee : ℚ) : ℚ → Date → List Entry → List Entry
  | _, _, [] => []
  | bal, prevDate, e :: rest =>
    let days : ℤ := diffDays e.end_date prevDate
    let interest : ℚ := (days : ℚ) / 365 * (interest_rate / 100) * bal
    let bal2 : ℚ := bal + interest + service_fee - e.repayment
    { e with
        opening_balance := round2 (bal2 - interest - service_fee + e.repayment)
        interest := round2 interest
        closing_balance := round2 bal2 }
      :: cascade interest_rate service_fee bal2 e.end_date rest

/-- Modelled from the spec's cascade-recompute wording (§4.3 step 4): each
subsequent entry keeps its recorded repayment and end date, its opening
balance becomes the running balance carried forward (displayed rounded),
its days run from the immediately preceding entry's date.  Used as the
specification side of the refinement theorem for the cascade. -/
def recomputeSpec (interest_rate service_fee : ℚ) : ℚ → Date → List Entry → List Entry
  | _, _, [] => []
  | bal, prevDate, e :: rest =>
    let days : ℤ := diffDays e.end_date prevDate
    let interest : ℚ := (days : ℚ) / 365 * (interest_rate / 100) * bal
    { e with
        opening_balance := round2 bal
        interest := round2 interest
        closing_balance := round2 (bal + interest + service_fee - e.repayment) }
      :: recomputeSpec interest_rate service_fee
          (bal + interest + service_fee - e.repayment) e.end_date rest

/-- The `is_mid_month_transaction` branch of `calculate` (lines 195-261 of
`main.py`), as a function of the ambient `months` list and loan state.
Python raises `IndexError` on `months[month_index]` when the index is out
of range; that is the `.error "IndexError"` case.  The two validation
failures return their messages (`jsonify({'error': ...})`) without
touching the schedule.  On success the result is the new `months` list
together with the final `current_balance` and `current_date` of the
branch. -/
def midMonthBranch (months : List Entry) (initial_balance interest_rate service_fee : ℚ)
    (current_date : Date) (transaction_date : Date)
    (transaction_amount transaction_service_fee transaction_interest_rate : ℚ)
    (month_index : ℕ) : Except String (List Entry × ℚ × Date) :=
  match months with
  | [] =>
    let days : ℤ := diffDays transaction_date current_date
    let interest : ℚ := (days : ℚ) / 365 * (transaction_interest_rate / 100) * initial_balance
    let closing_balance : ℚ :=
      initial_balance + interest + transaction_service_fee - transaction_amount
    .ok ([{ end_date := transaction_date
            opening_balance := round2 initial_balance
            interest := round2 interest
            service_fee := transaction_service_fee
            repayment := transaction_amount
            closing_balance := round2 closing_balance }],
         closing_balance, nextDay transaction_date)
  | m :: ms =>
    let prev_balance := ((m :: ms).getLast (List.cons_ne_nil m ms)).closing_balance
    let interest : ℚ :=
      ((transaction_date.day : ℤ) : ℚ) / 365 * (transaction_interest_rate / 100) * prev_balance
    let closing_balance : ℚ :=
      prev_balance + interest + transaction_service_fee - transaction_amount
    let transaction_entry : Entry :=
      { end_date := transaction_date
        opening_balance := round2 prev_balance
        interest := round2 interest
        service_fee := transaction_service_fee
        repayment := transaction_amount
        closing_balance := round2 closing_balance }
    let insert_index := month_index + 1
    match (m :: ms)[month_index]? with
    | none => .error "IndexError"
    | some anchor =>
      let clicked_date := anchor.end_date
      let next_date := ((m :: ms)[insert_index]?).map (·.end_date)
      if transaction_date.ord ≤ clicked_date.ord then
        .error "Transaction date must be after the selected row date"
      else if next_date.any (fun nd => nd.ord ≤ transaction_date.ord) then
        .error "Transaction date must be before the next row date"
      else
        let updated :=
          if insert_index < (m :: ms).length then
            (m :: ms).take insert_index
              ++ cascade interest_rate service_fee closing_balance transaction_date
                  ((m :: ms).drop insert_index)
          else m :: ms
        .ok (insertAt updated insert_index transaction_entry,
             closing_balance, nextDay transaction_date)

/-- The full `months` list returned by `calculate` on a mid-month
transaction request: the branch runs with `months == []` (nothing is
appended before line 195), then lines 360-361 reset the running balance
and date to `initial_balance` / `start_date` and the monthly loop appends
the base schedule after the transaction entry. -/
def calcMidMonthMonths (initial_balance interest_rate service_fee : ℚ)
    (repayments : List ℚ) (start_date today : Date) (transaction_date : Date)
    (transaction_amount transaction_service_fee transaction_interest_rate : ℚ)
    (month_index : ℕ) : Except String (List Entry) :=
  (midMonthBranch [] initial_balance interest_rate service_fee start_date
      transaction_date transaction_amount transaction_service_fee
      transaction_interest_rate month_index).map
    (fun r => r.1 ++ buildSchedule initial_balance interest_rate service_fee
        repayments start_date today)

/-- Observer: the opening balance of the first returned schedule row, when
the request succeeds and the schedule is non-empty. -/
def headOpening : Except String (List Entry) → Option ℚ
  | .ok (e :: _) => some e.opening_balance
  | _ => none

/-- The `while current_date <= deposit_date` loop of the direct-deposit
branch (lines 267-322 of `main.py`), starting from `months == []`.
`acc` accumulates the appended entries (the source indexes `repayments`
with `len(months)`), `bal` is `current_balance`.  The deposit month is
split: the pre-deposit sub-period entry is flagged `is_direct_deposit =
true`, and when the deposit date precedes the month end a remainder entry
(no repayment, ordinary service fee) flagged `false` follows, after which
the loop breaks.  On the `break` paths `current_balance` is updated only
inside the `deposit_date < month_end` block, exactly as in the source. -/
def depositLoop (interest_rate service_fee : ℚ) (repayments : List ℚ)
    (deposit_date : Date) (deposit_amount : ℚ) :
    ℕ → List Entry → ℚ → Date → List Entry × ℚ
  | 0, acc, bal, _ => (acc, bal)
  | fuel + 1, acc, bal, cur =>
    if cur.ord ≤ deposit_date.ord then
      let month_end := monthEnd cur
      if deposit_date.ord ≤ month_end.ord then
        let days_to_deposit : ℤ := diffDays deposit_date cur + 1
        let interest_to_deposit : ℚ :=
          (days_to_deposit : ℚ) / 365 * (interest_rate / 100) * bal
        let balance_at_deposit := bal + interest_to_deposit
        let e1 : Entry :=
          { end_date := deposit_date
            opening_balance := round2 bal
            interest := round2 interest_to_deposit
            service_fee := 0
            repayment := deposit_amount
            closing_balance := round2 (balance_at_deposit - deposit_amount)
            is_direct_deposit := some true }
        if deposit_date.ord < month_end.ord then
          let bal1 := balance_at_deposit - deposit_amount
          let days_after_deposit : ℤ := diffDays month_end deposit_date
          let interest_after_deposit : ℚ :=
            (days_after_deposit : ℚ) / 365 * (interest_rate / 100) * bal1
          let closing_balance := bal1 + interest_after_deposit + service_fee
          (acc ++ [e1,
            { end_date := month_end
              opening_balance := round2 bal1
              interest := round2 interest_after_deposit
              service_fee := service_fee
              repayment := 0
              closing_balance := round2 closing_balance
              is_direct_deposit := some false }], closing_balance)
        else (acc ++ [e1], bal)
      else
        let days : ℤ := diffDays month_end cur + 1
        let interest : ℚ := (days : ℚ) / 365 * (interest_rate / 100) * bal
        let repayment := repayments.getD acc.length 0
        let closing_balance := bal + interest + service_fee - repayment
        depositLoop interest_rate service_fee repayments deposit_date deposit_amount
          fuel
          (acc ++ [{ end_date := month_end
                     opening_balance := round2 bal
                     interest := round2 interest
                     service_fee := service_fee
                     repayment := repayment
                     closing_balance := round2 closing_balance
                     is_direct_deposit := some false }])
          closing_balance (nextMonthFirst cur)
    else (acc, bal)

/-- The `is_direct_deposit` branch of `calculate` (lines 263-358 of
`main.py`).  After the month-walking loop, line 324 computes
`days_for_deposit` from
`(deposit_date - months[-1]['end_date'].strftime('%d %b %Y') if months
else start_date).days + 1`: when `months` is non-empty this calls
`str.strftime` (the stored `end_date` is already a formatted string), and
when `months` is empty it evaluates `start_date.days`; either way Python
raises `AttributeError` before any schedule is returned, so the branch is
an unconditional failure. -/
def directDepositBranch (initial_balance interest_rate service_fee : ℚ)
    (repayments : List ℚ) (start_date : Date) (deposit_date : Date)
    (deposit_amount : ℚ) : Except String (List Entry) :=
  let _ := depositLoop interest_rate service_fee repayments deposit_date
    deposit_amount (monthsFuel start_date deposit_date + 1) [] initial_balance start_date
  .error "AttributeError"

/-- Result of `project_loan_end`, one constructor per returned message. -/
inductive Projection where
  | noRepayment
  | lessThanInterest
  | settles (months : ℕ) (refund : ℚ)
  | notWithin10Years
deriving DecidableEq

/-- The `while projection_balance > 0 and months_to_settlement < 120` loop
of `project_loan_end` (lines 365-391 of `main.py`), with the iteration
counter `months_to_settlement` carried and returned so that the number of
performed iterations is observable.  The wrapper supplies fuel `120`, so
fuel never runs out while `n < 120`. -/
def projectLoop (interest_rate service_fee current_month_repayment : ℚ) :
    ℕ → ℚ → Date → ℕ → Projection × ℕ
  | 0, bal, _, n => (if bal ≤ 0 then .settles n |bal| else .notWithin10Years, n)
  | fuel + 1, bal, d, n =>
    if 0 < bal ∧ n < 120 then
      let month_end := monthEnd d
      let interest : ℚ := bal * ((diffDays month_end d : ℤ) : ℚ) / 365 * (interest_rate / 100)
      if current_month_repayment ≤ interest then (.lessThanInterest, n)
      else
        projectLoop interest_rate service_fee current_month_repayment fuel
          (bal + interest + service_fee - current_month_repayment)
          (nextMonthFirst d) (n + 1)
    else (if bal ≤ 0 then .settles n |bal| else .notWithin10Years, n)

/-- `project_loan_end` from `main.py`, with the closure state
(`current_balance`, `current_date` at the call site and the loan's rate
and fee) passed explicitly.  Also returns the final iteration counter. -/
def project_loan_end (current_balance : ℚ) (current_date : Date)
    (interest_rate service_fee : ℚ) (current_month_repayment : ℚ) : Projection × ℕ :=
  if current_month_repayment ≤ 0 then (.noRepayment, 0)
  else projectLoop interest_rate service_fee current_month_repayment 120
    current_balance current_date 0

/-- One update of the balance/date state by the body of the
`project_loan_end` loop; `projBal` iterates it to give the projected
balance after `n` months, the claim-level notion of the projected
balance trajectory. -/
def projStep (interest_rate service_fee current_month_repayment : ℚ)
    (s : ℚ × Date) : ℚ × Date :=
  let month_end := monthEnd s.2
  let interest : ℚ :=
    s.1 * ((diffDays month_end s.2 : ℤ) : ℚ) / 365 * (interest_rate / 100)
  (s.1 + interest + service_fee - current_month_repayment, nextMonthFirst s.2)

/-- Projected balance after `n` iterations of the `project_loan_end`
update rule. -/
def projBal (interest_rate service_fee current_month_repayment bal0 : ℚ)
    (d0 : Date) : ℕ → ℚ × Date
  | 0 => (bal0, d0)
  | n + 1 => projStep interest_rate service_fee current_month_repayment
      (projBal interest_rate service_fee current_month_repayment bal0 d0 n)

/-- Result of the `/calculate_projection` route. -/
inductive ProjResult where
  | settlesIn (months : ℕ)
  | notWithin10Years
deriving DecidableEq

/-- The `while projection_balance > 0 and months < 120` loop of
`calculate_projection` (lines 456-461 of `main.py`): fixed 30/365 month
fraction, no early exit.  Returns the final balance and counter. -/
def calcProjLoop (interest_rate service_fee monthly_repayment : ℚ) :
    ℕ → ℚ → ℕ → ℚ × ℕ
  | 0, bal, n => (bal, n)
  | fuel + 1, bal, n =>
    if 0 < bal ∧ n < 120 then
      calcProjLoop interest_rate service_fee monthly_repayment fuel
        (bal + bal * 30 / 365 * (interest_rate / 100) + service_fee - monthly_repayment)
        (n + 1)
    else (bal, n)

/-- `calculate_projection` from `main.py` (lines 448-465), with the final
iteration count returned alongside the message. -/
def calculate_projection (current_balance monthly_repayment interest_rate service_fee : ℚ) :
    ProjResult × ℕ :=
  let r := calcProjLoop interest_rate service_fee monthly_repayment 120 current_balance 0
  (if r.1 ≤ 0 then .settlesIn r.2 else .notWithin10Years, r.2)

/-- Balance after `n` iterations of the `calculate_projection` update
rule. -/
def calcProjBal (interest_rate service_fee monthly_repayment bal0 : ℚ) : ℕ → ℚ
  | 0 => bal0
  | n + 1 =>
    let bal := calcProjBal interest_rate service_fee monthly_repayment bal0 n
    bal + bal * 30 / 365 * (interest_rate / 100) + service_fee - monthly_repayment

/-- `last_repayment = next((r for r in reversed(repayments) if r > 0), 0)`
(line 420 of `main.py`): the last strictly positive repayment, else 0. -/
def lastRepayment (repayments : List ℚ) : ℚ :=
  (repayments.reverse.find? (fun r => 0 < r)).getD 0

/-- The projection string attached to a `calculate` response. -/
inductive CalcProjection where
  | noRepaymentEntered
  | projected (p : Projection) (iters : ℕ)
deriving DecidableEq

/-- Line 421 of `main.py`:
`projection = project_loan_end(last_repayment) if last_repayment > 0 else
"No repayment entered yet"`, where `project_loan_end` reads the
`current_balance` and `current_date` left by the monthly loop. -/
def calcProjectionOf (initial_balance interest_rate service_fee : ℚ)
    (repayments : List ℚ) (start_date today : Date) : CalcProjection :=
  let st := buildLoop interest_rate service_fee repayments (monthEnd today)
    (monthsFuel start_date today) initial_balance start_date 0
  let last_repayment := lastRepayment repayments
  if 0 < last_repayment then
    let p := project_loan_end st.2.1 st.2.2 interest_rate service_fee last_repayment
    .projected p.1 p.2
  else .noRepaymentEntered

/-- Boolean adjacent-pair check on a schedule. -/
def pairsOK (p : Entry → Entry → Bool) : List Entry → Bool
  | [] => true
  | [_] => true
  | a :: b :: rest => p a b && pairsOK p (b :: rest)

theorem pairsOK_iff_chain (p : Entry → Entry → Bool) :
    ∀ l : List Entry, pairsOK p l = true ↔ List.Chain' (fun a b => p a b = true) l
  | [] => by simp [pairsOK]
  | [_] => by simp [pairsOK]
  | a :: b :: rest => by
    simp [pairsOK, List.chain'_cons, pairsOK_iff_chain p (b :: rest)]

/-- Claim C4: for every non-first accrual period, `calculate_monthly_balance`
computes `days = (end_date - start_date).days + 1`,
`interest = (days/365) * (rate/100) * opening_balance`, and
`closing_balance = opening_balance + interest + service_fee - repayment`
using the unrounded interest in the sum, rounding the money fields to two
decimals only in the returned entry; in particular opening 1000, rate 10,
fee 5, repayment 50 over a 31-day period yields interest 8.49 and closing
balance 963.49. -/
theorem c4_accrual_formula :
    (∀ (ob rate fee rep : ℚ) (s e : Date),
      calculate_monthly_balance ob rate fee rep s e false =
        { end_date := e
          opening_balance := round2 ob
          interest := round2 (((diffDays e s + 1 : ℤ) : ℚ) / 365 * (rate / 100) * ob)
          service_fee := fee
          repayment := rep
          closing_balance := round2 (closing_unrounded ob rate fee rep s e) })
    ∧ (calculate_monthly_balance 1000 10 5 50 ⟨2024, 1, 1⟩ ⟨2024, 1, 31⟩ false).interest
        = 849/100
    ∧ (calculate_monthly_balance 1000 10 5 50 ⟨2024, 1, 1⟩ ⟨2024, 1, 31⟩ false).closing_balance
        = 96349/100 := by
  refine ⟨fun ob rate fee rep s e => rfl, ?_, ?_⟩
  · with_unfolding_all rfl
  · with_unfolding_all rfl

/-- Claim C5 counterexample: with initial balance 1000, rate 10, fee 5,
repayments `[50, 50]`, start 15 Jan 2024 and the current month being
February 2024, the running balance left by the monthly loop to seed the
next period is `962.95`, the *rounded* closing balance of February, which
differs from February's unrounded closing balance `70295/73 =
962.9452...`; so the carried running balance is not the unrounded closing
balance. -/
theorem c5_counterexample :
    (buildLoop 10 5 [50, 50] (monthEnd ⟨2024, 2, 15⟩)
        (monthsFuel ⟨2024, 1, 15⟩ ⟨2024, 2, 15⟩) 1000 ⟨2024, 1, 15⟩ 0).2.1
      = round2 (closing_unrounded 1000 10 5 50 ⟨2024, 2, 1⟩ ⟨2024, 2, 29⟩)
    ∧ (buildLoop 10 5 [50, 50] (monthEnd ⟨2024, 2, 15⟩)
        (monthsFuel ⟨2024, 1, 15⟩ ⟨2024, 2, 15⟩) 1000 ⟨2024, 1, 15⟩ 0).2.1
      ≠ closing_unrounded 1000 10 5 50 ⟨2024, 2, 1⟩ ⟨2024, 2, 29⟩ := by
  have h1 : (buildLoop 10 5 [50, 50] (monthEnd ⟨2024, 2, 15⟩)
      (monthsFuel ⟨2024, 1, 15⟩ ⟨2024, 2, 15⟩) 1000 ⟨2024, 1, 15⟩ 0).2.1
      = 19259/20 := by with_unfolding_all rfl
  have h2 : round2 (closing_unrounded 1000 10 5 50 ⟨2024, 2, 1⟩ ⟨2024, 2, 29⟩)
      = 19259/20 := by with_unfolding_all rfl
  have h3 : closing_unrounded 1000 10 5 50 ⟨2024, 2, 1⟩ ⟨2024, 2, 29⟩
      = 70295/73 := by with_unfolding_all rfl
  refine ⟨h1.trans h2.symm, ?_⟩
  rw [h1, h3]
  norm_num

theorem getLastD_cons (c : Entry → ℚ) (m : Entry) (l : List Entry) (b : ℚ) :
    (((m :: l).getLast?).map c).getD b = ((l.getLast?).map c).getD (c m) := by
  cases l with
  | nil => simp
  | cons x xs =>
    rw [List.getLast?_cons_cons,
      List.getLast?_eq_getLast_of_ne_nil (List.cons_ne_nil x xs)]
    simp

/-- Claim C5 (amended): the running balance seeding the next period in the
monthly loop is the `closing_balance` *field* of the last produced entry,
which for every non-first period is the closing balance rounded to two
decimals; rounding is therefore applied to the carried balance at every
month boundary after the first accrual period. -/
theorem c5_amended :
    (∀ (rate fee : ℚ) (rp : List ℚ) (endD : Date) (fuel : ℕ) (bal : ℚ) (cur : Date) (idx : ℕ),
      (buildLoop rate fee rp endD fuel bal cur idx).2.1
        = (((buildLoop rate fee rp endD fuel bal cur idx).1.getLast?).map
            (·.closing_balance)).getD bal)
    ∧ (∀ (ob rate fee rep : ℚ) (s e : Date),
      (calculate_monthly_balance ob rate fee rep s e false).closing_balance
        = round2 (closing_unrounded ob rate fee rep s e)) := by
  constructor
  · intro rate fee rp endD fuel
    induction fuel with
    | zero => intro bal cur idx; rfl
    | succ f ih =>
      intro bal cur idx
      by_cases h : cur.ord ≤ endD.ord
      · simp only [buildLoop, if_pos h]
        rw [getLastD_cons]
        exact ih _ _ _
      · simp [buildLoop, if_neg h]
  · intro ob rate fee rep s e
    rfl

theorem buildLoop_chain (interest_rate service_fee : ℚ) (rp : List ℚ) (endD : Date) :
    ∀ (fuel : ℕ) (bal : ℚ) (cur : Date) (idx : ℕ),
      List.Chain' (fun a b => |a.closing_balance - b.opening_balance| ≤ 1/100)
        ((buildLoop interest_rate service_fee rp endD fuel bal cur idx).1)
      ∧ ∀ e, ((buildLoop interest_rate service_fee rp endD fuel bal cur idx).1).head? = some e →
          e.opening_balance = if idx = 0 then 0 else round2 bal := by
  intro fuel
  induction fuel with
  | zero => intro bal cur idx; exact ⟨List.chain'_nil, fun e he => by simp [buildLoop] at he⟩
  | succ f ih =>
    intro bal cur idx
    by_cases h : cur.ord ≤ endD.ord
    · have ihm := ih (calculate_monthly_balance bal interest_rate service_fee
        (rp.getD idx 0) cur (monthEnd cur) (idx == 0)).closing_balance
        (nextMonthFirst cur) (idx + 1)
      constructor
      · simp only [buildLoop, if_pos h]
        rw [List.chain'_cons']
        refine ⟨fun y hy => ?_, ihm.1⟩
        have hop := ihm.2 y hy
        rw [if_neg (Nat.succ_ne_zero idx)] at hop
        rw [hop]
        exact abs_sub_round2_le _
      · intro e he
        simp only [buildLoop, if_pos h, List.head?_cons, Option.some.injEq] at he
        subst he
        cases idx with
        | zero => simp [calculate_monthly_balance]
        | succ k =>
          simp only [if_neg (Nat.succ_ne_zero k)]
          simp [calculate_monthly_balance, Nat.succ_ne_zero]
    · exact ⟨by simp [buildLoop, if_neg h], fun e he => by simp [buildLoop, if_neg h] at he⟩

/-- Claim C6: in every schedule built without an injected event, every
pair of adjacent entries satisfies
`|closing_balance[i] - opening_balance[i+1]| <= 0.01`: each non-first
entry's displayed opening balance is the carried balance rounded to two
decimals, and the carried balance is the previous entry's closing
balance. -/
theorem c6_balance_continuity (initial_balance interest_rate service_fee : ℚ)
    (repayments : List ℚ) (start_date today : Date) :
    List.Chain' (fun a b => |a.closing_balance - b.opening_balance| ≤ 1/100)
      (buildSchedule initial_balance interest_rate service_fee repayments start_date today) :=
  (buildLoop_chain interest_rate service_fee repayments (monthEnd today)
    (monthsFuel start_date today) initial_balance start_date 0).1

/-- Claim C7 counterexample: a schedule built by `calculate` for a
mid-month transaction request (initial balance 1000, start 15 Jan 2024,
transaction of 100 on 20 Jan 2024 anchored at index 0) has as its first
entry the transaction entry, whose opening balance is 1000, not the
synthetic zero-activity row with opening balance 0. -/
theorem c7_counterexample :
    headOpening (calcMidMonthMonths 1000 10 5 [50, 50] ⟨2024, 1, 15⟩ ⟨2024, 2, 15⟩
        ⟨2024, 1, 20⟩ 100 0 10 0) = some 1000
    ∧ (1000 : ℚ) ≠ 0 := by
  constructor
  · with_unfolding_all rfl
  · norm_num

/-- Claim C7 (amended): the first entry of a schedule built *without* an
injected event is the synthetic zero-activity row: opening balance 0,
closing balance the initial balance, zero interest and zero service fee
(its repayment field holds `repayments[0]`); when a mid-month transaction
is injected, the transaction entry precedes this synthetic row, so it is
no longer first. -/
theorem c7_amended (initial_balance interest_rate service_fee : ℚ)
    (repayments : List ℚ) (s t : Date)
    (hym : s.year * 12 + s.month ≤ t.year * 12 + t.month)
    (hord : s.ord ≤ (monthEnd t).ord) :
    (buildSchedule initial_balance interest_rate service_fee repayments s t).head?
      = some { end_date := monthEnd s
               opening_balance := 0
               interest := 0
               service_fee := 0
               repayment := repayments.getD 0 0
               closing_balance := initial_balance } := by
  obtain ⟨f, hf⟩ : ∃ f, monthsFuel s t = f + 1 := by
    refine ⟨monthsFuel s t - 1, ?_⟩
    unfold monthsFuel
    omega
  unfold buildSchedule
  rw [hf]
  simp [buildLoop, if_pos hord, calculate_monthly_balance]

theorem c7_amended_witness :
    (buildSchedule 1000 10 5 [50, 50] ⟨2024, 1, 15⟩ ⟨2024, 2, 15⟩).head?
      = some { end_date := ⟨2024, 1, 31⟩
               opening_balance := 0
               interest := 0
               service_fee := 0
               repayment := (50 : ℚ)
               closing_balance := 1000 } := by
  have h := c7_amended 1000 10 5 [50, 50] ⟨2024, 1, 15⟩ ⟨2024, 2, 15⟩
    (by norm_num) (by with_unfolding_all decide)
  simpa using h

/-- Claim C9 counterexample: the end-to-end scenario (initial balance
10000, rate 12, fee 20, start 15 Jan 2024, repayments `[500]*12`, current
month December 2024) produces 12 entries, not 13: the synthetic
zero-activity row *is* January's row, so the schedule is 1 synthetic row
plus 11 accrual months (Feb-Dec), and its length is not 13. -/
theorem c9_counterexample :
    ¬ (buildSchedule 10000 12 20 (List.replicate 12 500)
        ⟨2024, 1, 15⟩ ⟨2024, 12, 15⟩).length = 13 := by
  have h : (buildSchedule 10000 12 20 (List.replicate 12 500)
      ⟨2024, 1, 15⟩ ⟨2024, 12, 15⟩).length = 12 := by with_unfolding_all rfl
  omega

/-- Claim C9 (amended): the end-to-end scenario (initial balance 10000,
rate 12, fee 20, start 15 Jan 2024, repayments `[500]*12`, current month
December 2024) produces exactly 12 entries (the synthetic first row is
January's row, followed by 11 accrual months Feb-Dec) with monotonically
non-decreasing end dates and balance continuity within 0.01 at every
boundary (no event is injected). -/
theorem c9_amended :
    (buildSchedule 10000 12 20 (List.replicate 12 500)
        ⟨2024, 1, 15⟩ ⟨2024, 12, 15⟩).length = 12
    ∧ pairsOK (fun a b => a.end_date.ord ≤ b.end_date.ord)
        (buildSchedule 10000 12 20 (List.replicate 12 500)
          ⟨2024, 1, 15⟩ ⟨2024, 12, 15⟩) = true
    ∧ pairsOK (fun a b => |a.closing_balance - b.opening_balance| ≤ 1/100)
        (buildSchedule 10000 12 20 (List.replicate 12 500)
          ⟨2024, 1, 15⟩ ⟨2024, 12, 15⟩) = true := by
  refine ⟨?_, ?_, ?_⟩
  · with_unfolding_all rfl
  · with_unfolding_all rfl
  · with_unfolding_all rfl

/-- Claim C3: every direct-deposit request crashes before returning.  The
month-walking loop does build the claimed split entries - here, for
initial balance 1000, rate 12, fee 20, start 1 Jan 2024 and a deposit of
200 on 15 Jan 2024, a pre-deposit sub-period entry (opening balance 1000 =
the running balance, the deposit as its repayment, flagged
`is_direct_deposit = true`) and a remainder-of-month entry (zero
repayment, ordinary service fee 20, flagged `false`) - but line 324 of
`main.py` then unconditionally raises `AttributeError`
(`str.strftime` on the stored end-date string, or `date.days` when no
months were built), so the branch never returns a schedule. -/
theorem c3_direct_deposit_crash :
    directDepositBranch 1000 12 20 (List.replicate 12 100) ⟨2024, 1, 1⟩
        ⟨2024, 1, 15⟩ 200 = .error "AttributeError"
    ∧ (depositLoop 12 20 (List.replicate 12 100) ⟨2024, 1, 15⟩ 200
        (monthsFuel ⟨2024, 1, 1⟩ ⟨2024, 1, 15⟩ + 1) [] 1000 ⟨2024, 1, 1⟩).1.length = 2
    ∧ ((depositLoop 12 20 (List.replicate 12 100) ⟨2024, 1, 15⟩ 200
        (monthsFuel ⟨2024, 1, 1⟩ ⟨2024, 1, 15⟩ + 1) [] 1000 ⟨2024, 1, 1⟩).1.head?).map
        (fun e => (e.end_date, e.opening_balance, e.repayment, e.service_fee,
          e.is_direct_deposit))
      = some (⟨2024, 1, 15⟩, 1000, 200, 0, some true)
    ∧ ((depositLoop 12 20 (List.replicate 12 100) ⟨2024, 1, 15⟩ 200
        (monthsFuel ⟨2024, 1, 1⟩ ⟨2024, 1, 15⟩ + 1) [] 1000 ⟨2024, 1, 1⟩).1.getLast?).map
        (fun e => (e.end_date, e.repayment, e.service_fee, e.is_direct_deposit))
      = some (⟨2024, 1, 31⟩, 0, 20, some false) := by
  refine ⟨rfl, ?_, ?_, ?_⟩
  · with_unfolding_all rfl
  · with_unfolding_all rfl
  · with_unfolding_all rfl

theorem cascade_eq_recomputeSpec (rate fee : ℚ) (es : List Entry) :
    ∀ (bal : ℚ) (pd : Date), cascade rate fee bal pd es = recomputeSpec rate fee bal pd es := by
  induction es with
  | nil => intro bal pd; rfl
  | cons e rest ih =>
    intro bal pd
    simp only [cascade, recomputeSpec, List.cons.injEq]
    refine ⟨?_, ih _ _⟩
    have h : bal + ((diffDays e.end_date pd : ℤ) : ℚ) / 365 * (rate / 100) * bal + fee
        - e.repayment
        - ((diffDays e.end_date pd : ℤ) : ℚ) / 365 * (rate / 100) * bal - fee
        + e.repayment = bal := by ring
    rw [h]

theorem recomputeSpec_map_repayment (rate fee : ℚ) (es : List Entry) :
    ∀ (bal : ℚ) (pd : Date),
      (recomputeSpec rate fee bal pd es).map (·.repayment) = es.map (·.repayment) := by
  induction es with
  | nil => intro _ _; rfl
  | cons e rest ih =>
    intro bal pd
    simp only [recomputeSpec, List.map_cons]
    rw [ih]

theorem recomputeSpec_map_end_date (rate fee : ℚ) (es : List Entry) :
    ∀ (bal : ℚ) (pd : Date),
      (recomputeSpec rate fee bal pd es).map (·.end_date) = es.map (·.end_date) := by
  induction es with
  | nil => intro _ _; rfl
  | cons e rest ih =>
    intro bal pd
    simp only [recomputeSpec, List.map_cons]
    rw [ih]

/-- Claim C2: for every mid-month repayment request against a schedule
with an anchor entry at `month_index`, a transaction date on or before
the anchor's `end_date` is rejected with a validation error, a
transaction date on or after the next entry's `end_date` (when one
exists) is rejected with a validation error - in both cases the function
returns only the error, no (partial) schedule - and a transaction date
strictly between the two (in particular one day after the anchor and one
day before the next entry) is accepted. -/
theorem c2_midmonth_validation (months : List Entry)
    (initial_balance interest_rate service_fee : ℚ) (start_date : Date)
    (txDate : Date) (amt txFee txRate : ℚ) (mi : ℕ) (anchor : Entry)
    (hmi : months[mi]? = some anchor) :
    (txDate.ord ≤ anchor.end_date.ord →
      midMonthBranch months initial_balance interest_rate service_fee start_date
          txDate amt txFee txRate mi
        = .error "Transaction date must be after the selected row date")
    ∧ (∀ nxt, months[mi + 1]? = some nxt → nxt.end_date.ord ≤ txDate.ord →
        anchor.end_date.ord < txDate.ord →
      midMonthBranch months initial_balance interest_rate service_fee start_date
          txDate amt txFee txRate mi
        = .error "Transaction date must be before the next row date")
    ∧ (anchor.end_date.ord < txDate.ord →
        (∀ nxt, months[mi + 1]? = some nxt → txDate.ord < nxt.end_date.ord) →
      ∃ r, midMonthBranch months initial_balance interest_rate service_fee start_date
          txDate amt txFee txRate mi = .ok r) := by
  cases months with
  | nil => simp at hmi
  | cons m ms =>
    refine ⟨?_, ?_, ?_⟩
    · intro h1
      simp only [midMonthBranch, hmi]
      rw [if_pos h1]
    · intro nxt hnxt h2 h3
      simp only [midMonthBranch, hmi, hnxt]
      rw [if_neg (not_le.2 h3)]
      rw [if_pos]
      exact decide_eq_true h2
    · intro h3 hall
      simp only [midMonthBranch, hmi]
      rw [if_neg (not_le.2 h3)]
      rw [if_neg]
      · exact ⟨_, rfl⟩
      · rcases hn : (m :: ms)[mi + 1]? with _ | nxt
        · exact Bool.false_ne_true
        · exact fun hc => absurd (of_decide_eq_true hc) (not_le.2 (hall nxt hn))

/-- The interest of the mid-month sub-period entry (line 205 of
`main.py`): `days = transaction_date.day` (day-of-month), applied to the
previous entry's closing balance. -/
def midMonthTxInterest (transaction_date : Date)
    (transaction_interest_rate prev_balance : ℚ) : ℚ :=
  ((transaction_date.day : ℤ) : ℚ) / 365 * (transaction_interest_rate / 100) * prev_balance

/-- The unrounded closing balance of the mid-month sub-period entry
(line 206 of `main.py`). -/
def midMonthTxClosing (transaction_date : Date)
    (transaction_interest_rate transaction_service_fee transaction_amount
      prev_balance : ℚ) : ℚ :=
  prev_balance + midMonthTxInterest transaction_date transaction_interest_rate prev_balance
    + transaction_service_fee - transaction_amount

/-- The mid-month sub-period entry (lines 208-215 of `main.py`). -/
def midMonthTxEntry (transaction_date : Date)
    (transaction_interest_rate transaction_service_fee transaction_amount
      prev_balance : ℚ) : Entry :=
  { end_date := transaction_date
    opening_balance := round2 prev_balance
    interest := round2 (midMonthTxInterest transaction_date transaction_interest_rate
      prev_balance)
    service_fee := transaction_service_fee
    repayment := transaction_amount
    closing_balance := round2 (midMonthTxClosing transaction_date
      transaction_interest_rate transaction_service_fee transaction_amount prev_balance) }

/-- Claim C1: for a mid-month repayment request against a schedule with
entries after the anchor index `month_index`, when validation passes the
branch inserts the new sub-period entry at position `month_index + 1` and
recomputes every subsequent entry in place: the result equals the
untouched prefix, then the transaction entry, then `recomputeSpec` - the
specification-side recompute in which each entry's opening balance is the
running balance carried forward from the inserted entry's (unrounded)
closing balance, its days run from the immediately preceding entry's date
(the transaction date for the first, each prior entry's date thereafter),
and its stored repayment is used; moreover the recomputed suffix preserves
every entry's originally recorded repayment and end date. -/
theorem c1_cascade_recompute (months : List Entry)
    (initial_balance interest_rate service_fee : ℚ) (start_date : Date)
    (txDate : Date) (amt txFee txRate : ℚ) (mi : ℕ) (anchor lastE : Entry)
    (hmi : months[mi]? = some anchor)
    (hlast : months.getLast? = some lastE)
    (hii : mi + 1 < months.length)
    (hv1 : anchor.end_date.ord < txDate.ord)
    (hv2 : ∀ nxt, months[mi + 1]? = some nxt → txDate.ord < nxt.end_date.ord) :
    midMonthBranch months initial_balance interest_rate service_fee start_date
        txDate amt txFee txRate mi
      = .ok (months.take (mi + 1)
              ++ midMonthTxEntry txDate txRate txFee amt lastE.closing_balance
              :: recomputeSpec interest_rate service_fee
                  (midMonthTxClosing txDate txRate txFee amt lastE.closing_balance)
                  txDate (months.drop (mi + 1)),
             midMonthTxClosing txDate txRate txFee amt lastE.closing_balance,
             nextDay txDate)
    ∧ (recomputeSpec interest_rate service_fee
          (midMonthTxClosing txDate txRate txFee amt lastE.closing_balance)
          txDate (months.drop (mi + 1))).map (·.repayment)
        = (months.drop (mi + 1)).map (·.repayment)
    ∧ (recomputeSpec interest_rate service_fee
          (midMonthTxClosing txDate txRate txFee amt lastE.closing_balance)
          txDate (months.drop (mi + 1))).map (·.end_date)
        = (months.drop (mi + 1)).map (·.end_date) := by
  cases months with
  | nil => simp at hii
  | cons m ms =>
    have hgl : (m :: ms).getLast (List.cons_ne_nil m ms) = lastE :=
      Option.some.inj
        ((List.getLast?_eq_getLast_of_ne_nil (List.cons_ne_nil m ms)).symm.trans hlast)
    refine ⟨?_, recomputeSpec_map_repayment _ _ _ _ _, recomputeSpec_map_end_date _ _ _ _ _⟩
    simp only [midMonthBranch, hmi]
    rw [if_neg (not_le.2 hv1)]
    rw [if_neg ?hnc]
    case hnc =>
      rcases hn : (m :: ms)[mi + 1]? with _ | nxt
      · exact Bool.false_ne_true
      · exact fun hc => absurd (of_decide_eq_true hc) (not_le.2 (hv2 nxt hn))
    rw [if_pos hii]
    rw [hgl]
    have hlen : ((m :: ms).take (mi + 1)).length = mi + 1 := by
      rw [List.length_take]
      omega
    unfold insertAt
    rw [List.take_left' hlen, List.drop_left' hlen]
    rw [cascade_eq_recomputeSpec]
    rfl

/-- The interest computed by one iteration of the `project_loan_end`
loop at state `s = (balance, date)`. -/
def projInterest (interest_rate : ℚ) (s : ℚ × Date) : ℚ :=
  s.1 * ((diffDays (monthEnd s.2) s.2 : ℤ) : ℚ) / 365 * (interest_rate / 100)

theorem projectLoop_counter_le (ir fee rep : ℚ) :
    ∀ (fuel : ℕ) (bal : ℚ) (d : Date) (n : ℕ), n ≤ 120 →
      (projectLoop ir fee rep fuel bal d n).2 ≤ 120 := by
  intro fuel
  induction fuel with
  | zero => intro bal d n hn; simpa [projectLoop] using hn
  | succ f ih =>
    intro bal d n hn
    by_cases hc : 0 < bal ∧ n < 120
    · simp only [projectLoop, if_pos hc]
      by_cases hr : rep ≤ bal * ((diffDays (monthEnd d) d : ℤ) : ℚ) / 365 * (ir / 100)
      · rw [if_pos hr]
        exact hn
      · rw [if_neg hr]
        exact ih _ _ _ (by omega)
    · simp only [projectLoop, if_neg hc]
      exact hn

theorem calcProjLoop_counter_le (ir fee rep : ℚ) :
    ∀ (fuel : ℕ) (bal : ℚ) (n : ℕ), n ≤ 120 →
      (calcProjLoop ir fee rep fuel bal n).2 ≤ 120 := by
  intro fuel
  induction fuel with
  | zero => intro bal n hn; simpa [calcProjLoop] using hn
  | succ f ih =>
    intro bal n hn
    by_cases hc : 0 < bal ∧ n < 120
    · simp only [calcProjLoop, if_pos hc]
      exact ih _ _ (by omega)
    · simp only [calcProjLoop, if_neg hc]
      exact hn

theorem projectLoop_cap_run (ir fee rep : ℚ) (b0 : ℚ) (d0 : Date)
    (hpos : ∀ n, n ≤ 120 → 0 < (projBal ir fee rep b0 d0 n).1)
    (hint : ∀ n, n < 120 → projInterest ir (projBal ir fee rep b0 d0 n) < rep) :
    ∀ (f j : ℕ), j + f = 120 →
      projectLoop ir fee rep f (projBal ir fee rep b0 d0 j).1
          (projBal ir fee rep b0 d0 j).2 j
        = (.notWithin10Years, 120) := by
  intro f
  induction f with
  | zero =>
    intro j hj
    have hj' : j = 120 := by omega
    subst hj'
    simp only [projectLoop]
    rw [if_neg (not_le.2 (hpos 120 le_rfl))]
  | succ f ih =>
    intro j hj
    have hjlt : j < 120 := by omega
    simp only [projectLoop]
    rw [if_pos ⟨hpos j (by omega), hjlt⟩]
    rw [if_neg (by simpa [projInterest] using not_le.2 (hint j hjlt))]
    exact ih (j + 1) (by omega)

theorem calcProjLoop_cap_run (ir fee rep : ℚ) (b0 : ℚ)
    (hpos : ∀ n, n ≤ 120 → 0 < calcProjBal ir fee rep b0 n) :
    ∀ (f j : ℕ), j + f = 120 →
      calcProjLoop ir fee rep f (calcProjBal ir fee rep b0 j) j
        = (calcProjBal ir fee rep b0 120, 120) := by
  intro f
  induction f with
  | zero =>
    intro j hj
    have hj' : j = 120 := by omega
    subst hj'
    simp [calcProjLoop]
  | succ f ih =>
    intro j hj
    have hjlt : j < 120 := by omega
    simp only [calcProjLoop]
    rw [if_pos ⟨hpos j (by omega), hjlt⟩]
    exact ih (j + 1) (by omega)

/-- Claim C8 counterexample: for `project_loan_end` with balance 1000,
start 15 Jan 2024, rate 36500, fee 0 and repayment 1, the projected
balance never reaches zero (it grows every month), yet the simulation
performs 0 iterations - not 120 - and returns the "repayment less than
monthly interest" message instead of the "will not settle within 10
years" message. -/
theorem c8_counterexample :
    (∀ n : ℕ, 0 < (projBal 36500 0 1 1000 ⟨2024, 1, 15⟩ n).1)
    ∧ project_loan_end 1000 ⟨2024, 1, 15⟩ 36500 0 1 = (.lessThanInterest, 0)
    ∧ ((Projection.lessThanInterest, (0 : ℕ)) : Projection × ℕ)
        ≠ (Projection.notWithin10Years, 120) := by
  refine ⟨?_, by with_unfolding_all rfl, by simp⟩
  have key : ∀ n : ℕ,
      1000 ≤ (projBal 36500 0 1 1000 ⟨2024, 1, 15⟩ n).1
      ∧ (projBal 36500 0 1 1000 ⟨2024, 1, 15⟩ n).2.day
          < daysInMonth (projBal 36500 0 1 1000 ⟨2024, 1, 15⟩ n).2.year
              (projBal 36500 0 1 1000 ⟨2024, 1, 15⟩ n).2.month := by
    intro n
    induction n with
    | zero =>
      constructor
      · norm_num [projBal]
      · show (15 : ℕ) < daysInMonth 2024 1
        with_unfolding_all decide
    | succ k ih =>
      obtain ⟨hb, hd⟩ := ih
      have hstate : projBal 36500 0 1 1000 ⟨2024, 1, 15⟩ (k + 1)
          = projStep 36500 0 1 (projBal 36500 0 1 1000 ⟨2024, 1, 15⟩ k) := rfl
      rcases hs : projBal 36500 0 1 1000 ⟨2024, 1, 15⟩ k with ⟨b, d⟩
      rw [hs] at hb hd
      dsimp only at hb hd
      rw [hstate, hs]
      have hdays : (1 : ℤ) ≤ diffDays (monthEnd d) d := by
        unfold diffDays monthEnd Date.ord
        dsimp only
        push_cast
        omega
      constructor
      · have hdaysq : (1 : ℚ) ≤ ((diffDays (monthEnd d) d : ℤ) : ℚ) := by
          exact_mod_cast hdays
        simp only [projStep]
        have hb0 : (0 : ℚ) < b := by linarith
        have hsimpl : b * ((diffDays (monthEnd d) d : ℤ) : ℚ) / 365 * (36500 / 100)
            = b * ((diffDays (monthEnd d) d : ℤ) : ℚ) := by
          field_simp
          ring
        rw [hsimpl]
        nlinarith
      · show (nextMonthFirst d).day
            < daysInMonth (nextMonthFirst d).year (nextMonthFirst d).month
        unfold nextMonthFirst
        by_cases h12 : d.month = 12
        · rw [if_pos h12]
          show 1 < daysInMonth (d.year + 1) 1
          unfold daysInMonth
          split_ifs <;> omega
        · rw [if_neg h12]
          show 1 < daysInMonth d.year (d.month + 1)
          unfold daysInMonth
          split_ifs <;> omega
  intro n
  have := (key n).1
  linarith

/-- Claim C8 (amended): both settlement-simulation loops are bounded by
the hard cap of 120 iterations on every input.  For `calculate_projection`
(which has no early exit), every input whose projected balance stays
positive through the 120-month horizon performs exactly 120 iterations
and returns the "will not settle within 10 years" message.  The same
holds for `project_loan_end` provided additionally that the repayment is
positive and strictly exceeds each simulated month's interest; otherwise
`project_loan_end` returns early (the "no repayment" or "repayment less
than monthly interest" message) without reaching 120 iterations. -/
theorem c8_amended :
    (∀ (cb mr ir fee : ℚ), (calculate_projection cb mr ir fee).2 ≤ 120)
    ∧ (∀ (bal : ℚ) (d : Date) (ir fee rep : ℚ),
        (project_loan_end bal d ir fee rep).2 ≤ 120)
    ∧ (∀ (cb mr ir fee : ℚ), (∀ n, n ≤ 120 → 0 < calcProjBal ir fee mr cb n) →
        calculate_projection cb mr ir fee = (.notWithin10Years, 120))
    ∧ (∀ (bal : ℚ) (d : Date) (ir fee rep : ℚ), 0 < rep →
        (∀ n, n ≤ 120 → 0 < (projBal ir fee rep bal d n).1) →
        (∀ n, n < 120 → projInterest ir (projBal ir fee rep bal d n) < rep) →
        project_loan_end bal d ir fee rep = (.notWithin10Years, 120)) := by
  refine ⟨?_, ?_, ?_, ?_⟩
  · intro cb mr ir fee
    show (calcProjLoop ir fee mr 120 cb 0).2 ≤ 120
    exact calcProjLoop_counter_le ir fee mr 120 cb 0 (by omega)
  · intro bal d ir fee rep
    unfold project_loan_end
    by_cases h : rep ≤ 0
    · rw [if_pos h]
      omega
    · rw [if_neg h]
      exact projectLoop_counter_le ir fee rep 120 bal d 0 (by omega)
  · intro cb mr ir fee hpos
    have h := calcProjLoop_cap_run ir fee mr cb hpos 120 0 (by omega)
    unfold calculate_projection
    rw [show calcProjBal ir fee mr cb 0 = cb from rfl] at h
    rw [h]
    simp only
    rw [if_neg (not_le.2 (hpos 120 le_rfl))]
  · intro bal d ir fee rep hrep hpos hint
    have h := projectLoop_cap_run ir fee rep bal d hpos hint 120 0 (by omega)
    unfold project_loan_end
    rw [if_neg (not_le.2 hrep)]
    exact h

theorem c8_amended_witness :
    calculate_projection 1000 0 0 0 = (.notWithin10Years, 120)
    ∧ project_loan_end 1000 ⟨2024, 1, 15⟩ 0 1 1 = (.notWithin10Years, 120) := by
  constructor
  · exact c8_amended.2.2.1 1000 0 0 0 (by
      intro n hn
      clear hn
      have h : calcProjBal 0 0 0 1000 n = 1000 := by
        induction n with
        | zero => rfl
        | succ k ih =>
          show calcProjBal 0 0 0 1000 k
              + calcProjBal 0 0 0 1000 k * 30 / 365 * (0 / 100) + 0 - 0 = 1000
          rw [ih]
          norm_num
      rw [h]
      norm_num)
  · refine c8_amended.2.2.2 1000 ⟨2024, 1, 15⟩ 0 1 1 (by norm_num) ?_ ?_
    · intro n hn
      clear hn
      have h : (projBal 0 1 1 1000 ⟨2024, 1, 15⟩ n).1 = 1000 := by
        induction n with
        | zero => rfl
        | succ k ih =>
          show (projStep 0 1 1 (projBal 0 1 1 1000 ⟨2024, 1, 15⟩ k)).1 = 1000
          simp only [projStep]
          rw [ih]
          norm_num
      rw [h]
      norm_num
    · intro n hn
      unfold projInterest
      norm_num

theorem find?_append_none {p : ℚ → Bool} :
    ∀ (A B : List ℚ), A.find? p = none → (A ++ B).find? p = B.find? p
  | [], _, _ => rfl
  | a :: A, B, h => by
    by_cases hp : p a = true
    · rw [List.find?_cons_of_pos _ hp] at h
      exact absurd h (by simp)
    · rw [List.find?_cons_of_neg _ hp] at h
      rw [List.cons_append, List.find?_cons_of_neg _ hp]
      exact find?_append_none A B h

theorem lastRepayment_of_all_nonpos (l : List ℚ) (h : ∀ r ∈ l, r ≤ 0) :
    lastRepayment l = 0 := by
  unfold lastRepayment
  rw [List.find?_eq_none.2 ?hnone]
  · rfl
  case hnone =>
    intro x hx
    simp only [decide_eq_true_eq]
    exact not_lt.2 (h x (List.mem_reverse.1 hx))

theorem lastRepayment_append_pos (pre post : List ℚ) (r : ℚ)
    (hr : 0 < r) (hpost : ∀ x ∈ post, x ≤ 0) :
    lastRepayment (pre ++ r :: post) = r := by
  unfold lastRepayment
  rw [List.reverse_append, List.reverse_cons, List.append_assoc]
  rw [find?_append_none post.reverse _ (List.find?_eq_none.2 ?hnone)]
  · rw [List.singleton_append,
      @List.find?_cons_of_pos ℚ (fun x => decide (0 < x)) r pre.reverse
        (decide_eq_true hr)]
    rfl
  case hnone =>
    intro x hx
    simp only [decide_eq_true_eq]
    exact not_lt.2 (hpost x (List.mem_reverse.1 hx))

/-- Claim C10: the repayment seeding the settlement projection is the
last strictly positive element of the repayments list (scanning from the
end); when no element is strictly positive, `project_loan_end` is not
invoked at all (`calcProjectionOf` takes the `.noRepaymentEntered`
branch, the "No repayment entered yet" string). -/
theorem c10_last_positive_seed :
    (∀ (ib ir fee : ℚ) (repays : List ℚ) (s t : Date),
      (∀ r ∈ repays, r ≤ 0) →
      calcProjectionOf ib ir fee repays s t = .noRepaymentEntered)
    ∧ (∀ (ib ir fee : ℚ) (pre post : List ℚ) (r : ℚ) (s t : Date),
        0 < r → (∀ x ∈ post, x ≤ 0) →
        lastRepayment (pre ++ r :: post) = r
        ∧ calcProjectionOf ib ir fee (pre ++ r :: post) s t
          = .projected
              (project_loan_end
                (buildLoop ir fee (pre ++ r :: post) (monthEnd t)
                  (monthsFuel s t) ib s 0).2.1
                (buildLoop ir fee (pre ++ r :: post) (monthEnd t)
                  (monthsFuel s t) ib s 0).2.2
                ir fee r).1
              (project_loan_end
                (buildLoop ir fee (pre ++ r :: post) (monthEnd t)
                  (monthsFuel s t) ib s 0).2.1
                (buildLoop ir fee (pre ++ r :: post) (monthEnd t)
                  (monthsFuel s t) ib s 0).2.2
                ir fee r).2) := by
  constructor
  · intro ib ir fee repays s t h
    unfold calcProjectionOf
    rw [lastRepayment_of_all_nonpos repays h]
    rw [if_neg (lt_irrefl 0)]
  · intro ib ir fee pre post r s t hr hpost
    have hlast := lastRepayment_append_pos pre post r hr hpost
    refine ⟨hlast, ?_⟩
    unfold calcProjectionOf
    rw [hlast, if_pos hr]

theorem c10_witness :
    lastRepayment ([5, 0] ++ 3 :: [0, 0]) = 3
    ∧ calcProjectionOf 1000 10 5 ([5, 0] ++ 3 :: [0, 0]) ⟨2024, 1, 15⟩ ⟨2024, 3, 15⟩
      = .projected
          (project_loan_end
            (buildLoop 10 5 ([5, 0] ++ 3 :: [0, 0]) (monthEnd ⟨2024, 3, 15⟩)
              (monthsFuel ⟨2024, 1, 15⟩ ⟨2024, 3, 15⟩) 1000 ⟨2024, 1, 15⟩ 0).2.1
            (buildLoop 10 5 ([5, 0] ++ 3 :: [0, 0]) (monthEnd ⟨2024, 3, 15⟩)
              (monthsFuel ⟨2024, 1, 15⟩ ⟨2024, 3, 15⟩) 1000 ⟨2024, 1, 15⟩ 0).2.2
            10 5 3).1
          (project_loan_end
            (buildLoop 10 5 ([5, 0] ++ 3 :: [0, 0]) (monthEnd ⟨2024, 3, 15⟩)
              (monthsFuel ⟨2024, 1, 15⟩ ⟨2024, 3, 15⟩) 1000 ⟨2024, 1, 15⟩ 0).2.1
            (buildLoop 10 5 ([5, 0] ++ 3 :: [0, 0]) (monthEnd ⟨2024, 3, 15⟩)
              (monthsFuel ⟨2024, 1, 15⟩ ⟨2024, 3, 15⟩) 1000 ⟨2024, 1, 15⟩ 0).2.2
            10 5 3).2
    ∧ calcProjectionOf 1000 10 5 [0, -2] ⟨2024, 1, 15⟩ ⟨2024, 3, 15⟩
      = .noRepaymentEntered := by
  have hpost : ∀ x ∈ ([0, 0] : List ℚ), x ≤ 0 := by
    intro x hx
    simp only [List.mem_cons, List.not_mem_nil, or_false] at hx
    rcases hx with h | h
    · rw [h]
    · rw [h]
  have h2 := c10_last_positive_seed.2 1000 10 5 [5, 0] [0, 0] 3 ⟨2024, 1, 15⟩
    ⟨2024, 3, 15⟩ (by norm_num) hpost
  refine ⟨h2.1, h2.2, ?_⟩
  refine c10_last_positive_seed.1 1000 10 5 [0, -2] ⟨2024, 1, 15⟩ ⟨2024, 3, 15⟩ ?_
  intro x hx
  simp only [List.mem_cons, List.not_mem_nil, or_false] at hx
  rcases hx with h | h
  · rw [h]
  · rw [h]
    norm_num

theorem c2_midmonth_validation_witness :
    midMonthBranch [⟨⟨2024, 1, 31⟩, 0, 0, 0, 50, 1000, none⟩,
        ⟨⟨2024, 2, 2⟩, 1000, 8, 5, 50, 963, none⟩]
        1000 10 5 ⟨2024, 1, 15⟩ ⟨2024, 1, 31⟩ 100 0 10 0
      = .error "Transaction date must be after the selected row date"
    ∧ midMonthBranch [⟨⟨2024, 1, 31⟩, 0, 0, 0, 50, 1000, none⟩,
        ⟨⟨2024, 2, 2⟩, 1000, 8, 5, 50, 963, none⟩]
        1000 10 5 ⟨2024, 1, 15⟩ ⟨2024, 2, 2⟩ 100 0 10 0
      = .error "Transaction date must be before the next row date"
    ∧ ∃ r, midMonthBranch [⟨⟨2024, 1, 31⟩, 0, 0, 0, 50, 1000, none⟩,
        ⟨⟨2024, 2, 2⟩, 1000, 8, 5, 50, 963, none⟩]
        1000 10 5 ⟨2024, 1, 15⟩ ⟨2024, 2, 1⟩ 100 0 10 0 = .ok r := by
  refine ⟨?_, ?_, ?_⟩
  · exact (c2_midmonth_validation _ 1000 10 5 ⟨2024, 1, 15⟩ ⟨2024, 1, 31⟩ 100 0 10 0
      ⟨⟨2024, 1, 31⟩, 0, 0, 0, 50, 1000, none⟩ rfl).1 (by decide)
  · exact (c2_midmonth_validation _ 1000 10 5 ⟨2024, 1, 15⟩ ⟨2024, 2, 2⟩ 100 0 10 0
      ⟨⟨2024, 1, 31⟩, 0, 0, 0, 50, 1000, none⟩ rfl).2.1
      ⟨⟨2024, 2, 2⟩, 1000, 8, 5, 50, 963, none⟩ rfl (by decide) (by decide)
  · refine (c2_midmonth_validation _ 1000 10 5 ⟨2024, 1, 15⟩ ⟨2024, 2, 1⟩ 100 0 10 0
      ⟨⟨2024, 1, 31⟩, 0, 0, 0, 50, 1000, none⟩ rfl).2.2 (by decide) ?_
    intro nxt hx
    have hx2 : some (⟨⟨2024, 2, 2⟩, 1000, 8, 5, 50, 963, none⟩ : Entry) = some nxt := hx
    rw [← Option.some.inj hx2]
    decide

theorem c1_cascade_recompute_witness :
    midMonthBranch [⟨⟨2024, 1, 31⟩, 0, 0, 0, 50, 1000, none⟩,
        ⟨⟨2024, 2, 29⟩, 1000, 8, 5, 50, 963, none⟩,
        ⟨⟨2024, 3, 31⟩, 963, 8, 5, 50, 926, none⟩]
        1000 10 5 ⟨2024, 1, 15⟩ ⟨2024, 2, 10⟩ 100 0 10 0
      = .ok (([⟨⟨2024, 1, 31⟩, 0, 0, 0, 50, 1000, none⟩,
              ⟨⟨2024, 2, 29⟩, 1000, 8, 5, 50, 963, none⟩,
              ⟨⟨2024, 3, 31⟩, 963, 8, 5, 50, 926, none⟩] : List Entry).take 1
              ++ midMonthTxEntry ⟨2024, 2, 10⟩ 10 0 100 (926 : ℚ)
              :: recomputeSpec 10 5 (midMonthTxClosing ⟨2024, 2, 10⟩ 10 0 100 (926 : ℚ))
                  ⟨2024, 2, 10⟩
                  (([⟨⟨2024, 1, 31⟩, 0, 0, 0, 50, 1000, none⟩,
                    ⟨⟨2024, 2, 29⟩, 1000, 8, 5, 50, 963, none⟩,
                    ⟨⟨2024, 3, 31⟩, 963, 8, 5, 50, 926, none⟩] : List Entry).drop 1),
             midMonthTxClosing ⟨2024, 2, 10⟩ 10 0 100 (926 : ℚ),
             nextDay ⟨2024, 2, 10⟩) := by
  refine (c1_cascade_recompute
    [⟨⟨2024, 1, 31⟩, 0, 0, 0, 50, 1000, none⟩,
      ⟨⟨2024, 2, 29⟩, 1000, 8, 5, 50, 963, none⟩,
      ⟨⟨2024, 3, 31⟩, 963, 8, 5, 50, 926, none⟩]
    1000 10 5 ⟨2024, 1, 15⟩ ⟨2024, 2, 10⟩ 100 0 10 0
    ⟨⟨2024, 1, 31⟩, 0, 0, 0, 50, 1000, none⟩
    ⟨⟨2024, 3, 31⟩, 963, 8, 5, 50, 926, none⟩
    rfl rfl (by norm_num) (by decide) ?_).1
  intro nxt hx
  have hx2 : some (⟨⟨2024, 2, 29⟩, 1000, 8, 5, 50, 963, none⟩ : Entry) = some nxt := hx
  rw [← Option.some.inj hx2]
  decide
